import Mathlib

/-
Shallow embedding of the per-request pipeline of
src/sandbox/concurrent_bert_etl_worker2/app_all_lambdas/jobs.py
(function bert_tess_fullframe_worker_2), one work-queue event at a time.

Python floats are modelled as rationals; no arithmetic is performed on them
by the source, they are only parsed, stored and serialized.  The storage
layer (boto3) and the astropy table writer are modelled by an explicit
environment (`World`): the probe answer, each fragment's fate, and the
success of the local write and of the upload.
-/

/-- Raw scalar as found in one comma-separated slot of a fragment file:
a float-looking token, an int-looking token, or a non-numeric token
(Python: float() accepts both numeric forms, int() only the integer form,
and both raise ValueError on a non-numeric token). -/
inductive RawField where
  | f (q : ℚ)
  | i (n : Int)
  | bad
deriving DecidableEq, Repr

/-- Python float() on one token. -/
def floatOf : RawField → Option ℚ
  | .f q => some q
  | .i n => some (n : ℚ)
  | .bad => none

/-- Python int() on one token. -/
def intOf : RawField → Option Int
  | .i n => some n
  | _ => none

/-- One table row: jobs.py line 120 add_row((midtime, signal, background, dqflag)). -/
structure Row where
  time : ℚ
  flux : ℚ
  bkg : ℚ
  quality : Int
deriving DecidableEq, Repr

/-- The four per-fragment position scalars (jobs.py lines 115-118). -/
structure Pos where
  x : Int
  y : Int
  ra : ℚ
  dec : ℚ
deriving DecidableEq, Repr

/-- Lines 111-118 of jobs.py: the eight sequential conversions
float(row[0]) .. float(row[7]); any missing slot or failing conversion
raises, aborting the request. -/
def parseRow (row : List RawField) : Option (Row × Pos) :=
  match (row.get? 0).bind floatOf, (row.get? 1).bind floatOf,
        (row.get? 2).bind floatOf, (row.get? 3).bind intOf,
        (row.get? 4).bind intOf, (row.get? 5).bind intOf,
        (row.get? 6).bind floatOf, (row.get? 7).bind floatOf with
  | some midtime, some signal, some background, some dqflag,
    some xpos, some ypos, some ra, some dec =>
      some (⟨midtime, signal, background, dqflag⟩, ⟨xpos, ypos, ra, dec⟩)
  | _, _, _, _, _, _, _, _ => none

/-- Fate of one enumerated fragment, as decided by the storage layer:
the download raises (boto3 leaves no local file), the local copy cannot
be read as text (open/read raises after the download, before the
os.remove on line 109), or the file reads as a comma-separated token list. -/
inductive FragData where
  | fetchFail
  | unreadable
  | rows (fields : List RawField)
deriving DecidableEq, Repr

/-- One enumerated fragment: its storage key (the local scratch file name
is derived from it) and its fate. -/
structure Fragment where
  key : String
  data : FragData
deriving DecidableEq, Repr

/-- Dynamic value of event['use_cache']; Python == between a string and a
non-string is False. -/
inductive EventVal where
  | str (s : String)
  | bool (b : Bool)
  | num (n : Int)
deriving DecidableEq, Repr

/-- Line 68 of jobs.py: event['use_cache'] == 'true'. -/
def valueIsTrue : EventVal → Bool
  | .str s => s == "true"
  | _ => false

/-- Answer of the existence probe s3.Object(bucket_name, s3key).load()
(lines 73-76): success, a not-found error, or any other transport error.
The code's except clause catches every exception alike. -/
inductive ProbeResult where
  | found
  | notFound
  | transportErr
deriving DecidableEq, Repr

/-- One incoming work-queue event (lines 52-58), already coerced. -/
structure Event where
  tic_id : String
  sector : Int
  camera : Int
  ccd : Int
  radius : ℚ
  cutout_width : Int
  use_cache : EventVal
deriving DecidableEq, Repr

/-- External world for one request: probe answer, enumerated fragments in
enumeration order, whether the local FITS write succeeds, whether the S3
upload succeeds, and the utcnow timestamp string. -/
structure World where
  probe : ProbeResult
  fragments : List Fragment
  writeOk : Bool
  uploadOk : Bool
  now : String
deriving DecidableEq, Repr

/-- FITS header metadata: the fixed fields of lines 82-91 plus the derived
position fields of lines 126-130. -/
structure Header where
  telescop : String
  camera : Int
  sector : Int
  ccd : Int
  object : String
  radesys : String
  apRad : ℚ
  skyWidth : Int
  date : String
  raObj : ℚ
  decObj : ℚ
  apcenX : Int
  apcenY : Int
deriving DecidableEq, Repr

/-- Header construction: lc_meta (lines 82-91) then the meta.update of
lines 126-130 with the loop-leftover position variables. -/
def buildHeader (ev : Event) (now : String) (p : Pos) : Header :=
  { telescop := "TESS"
    camera := ev.camera
    sector := ev.sector
    ccd := ev.ccd
    object := "TIC " ++ ev.tic_id
    radesys := "ICRS"
    apRad := ev.radius
    skyWidth := ev.cutout_width
    date := now
    raObj := p.ra
    decObj := p.dec
    apcenX := p.x
    apcenY := p.y }

/-- Exceptions a request can die of, by the raising source line. -/
inductive Err where
  | fetchFailure
  | readFailure
  | malformedFragment
  | nameError
  | writeFailure
deriving DecidableEq, Repr

/-- How one event's processing ends: skipped via the cache, the loop body
ran to its end (whether or not the upload inside it succeeded), or an
uncaught exception escaped. -/
inductive Outcome where
  | cached
  | completed
  | crashed (e : Err)
deriving DecidableEq, Repr

/-- State threaded through the fragment loop of lines 99-120. -/
structure LoopState where
  scratch : List String
  rows : List Row
  lastPos : Option Pos
  downloads : Nat
deriving DecidableEq, Repr

def initState : LoopState := { scratch := [], rows := [], lastPos := none, downloads := 0 }

/-- One iteration of the fragment loop (lines 99-120).  On a successful
read the local copy is created and removed again (line 109), so scratch is
net unchanged; an unreadable copy is downloaded but never removed because
the exception skips line 109; a parse error happens after the removal. -/
def stepFragment (st : LoopState) (f : Fragment) : LoopState × Option Err :=
  match f.data with
  | .fetchFail => ({ st with downloads := st.downloads + 1 }, some Err.fetchFailure)
  | .unreadable =>
      ({ st with downloads := st.downloads + 1, scratch := st.scratch ++ [f.key] },
       some Err.readFailure)
  | .rows fields =>
      match parseRow fields with
      | none => ({ st with downloads := st.downloads + 1 }, some Err.malformedFragment)
      | some (r, p) =>
          ({ st with
              downloads := st.downloads + 1
              rows := st.rows ++ [r]
              lastPos := some p }, none)

/-- The fragment loop: runs every fragment in enumeration order, stopping
at the first uncaught exception. -/
def processFrags : List Fragment → LoopState → LoopState × Option Err
  | [], st => (st, none)
  | f :: fs, st =>
      match stepFragment st f with
      | (st', none) => processFrags fs st'
      | (st', some e) => (st', some e)

/-- Integer encoding of a rational (numerator, denominator). -/
def encodeQ (q : ℚ) : List Int := [q.num, (q.den : Int)]

/-- Integer encoding of a string: length then code points. -/
def encodeStr (s : String) : List Int :=
  (s.length : Int) :: s.toList.map (fun c => (c.toNat : Int))

/-- Integer encoding of one table row. -/
def encodeRow (r : Row) : List Int :=
  encodeQ r.time ++ encodeQ r.flux ++ encodeQ r.bkg ++ [r.quality]

/-- Byte-level model of lc_tab.write(..., format='fits') (line 134): a
content-faithful flattening of header then rows; the exact FITS layout is
an external fixed contract, but it records every header value and every
row value, which is all the claims need. -/
def serializeFits (rows : List Row) (h : Header) : List Int :=
  encodeStr h.telescop ++ [h.camera, h.sector, h.ccd] ++ encodeStr h.object ++
  encodeStr h.radesys ++ encodeQ h.apRad ++ [h.skyWidth] ++ encodeStr h.date ++
  encodeQ h.raObj ++ encodeQ h.decObj ++ [h.apcenX, h.apcenY] ++
  (rows.map encodeRow).flatten

/-- Observables of one event's processing. -/
structure RunResult where
  outcome : Outcome
  probeChecked : Bool
  downloads : Nat
  uploadAttempts : Nat
  uploaded : Bool
  errorsLogged : Nat
  scratch : List String
  artifact : Option (List Row × Header)
  bytes : Option (List Int)
deriving DecidableEq, Repr

/-- Result of the cache short-circuit (lines 77-79): log info, continue. -/
def cachedResult : RunResult :=
  { outcome := .cached, probeChecked := true, downloads := 0, uploadAttempts := 0,
    uploaded := false, errorsLogged := 0, scratch := [], artifact := none, bytes := none }

/-- Result when an exception escapes the loop body: nothing written,
nothing uploaded, nothing error-logged by this code (the exception
propagates), scratch in whatever state the loop left it. -/
def crashedRun (pc : Bool) (e : Err) (st : LoopState) : RunResult :=
  { outcome := .crashed e, probeChecked := pc, downloads := st.downloads,
    uploadAttempts := 0, uploaded := false, errorsLogged := 0,
    scratch := st.scratch, artifact := none, bytes := none }

/-- The generation path (lines 81-147): fragment loop, sort (line 123,
modelled by the `alg` parameter, see `SortSpec`), meta.update (lines
126-130, raising UnboundLocalError when no fragment ever bound the
position variables), local FITS write, then upload guarded by
try/except/else/finally: a failed upload is logged and swallowed, and the
staged output file is removed either way. -/
def generate (alg : List Row → List Row) (ev : Event) (w : World) (pc : Bool) : RunResult :=
  match processFrags w.fragments initState with
  | (st, some e) => crashedRun pc e st
  | (st, none) =>
      let sortedRows := alg st.rows
      match st.lastPos with
      | none => crashedRun pc Err.nameError st
      | some p =>
          if w.writeOk then
            let hdr := buildHeader ev w.now p
            { outcome := .completed, probeChecked := pc, downloads := st.downloads,
              uploadAttempts := 1, uploaded := w.uploadOk,
              errorsLogged := if w.uploadOk then 0 else 1,
              scratch := st.scratch,
              artifact := some (sortedRows, hdr),
              bytes := some (serializeFits sortedRows hdr) }
          else crashedRun pc Err.writeFailure st

/-- Processing of one event (lines 52-147): the probe runs only when
use_cache compares equal to the string true; a successful probe
short-circuits, and any probe exception, a not-found and a transport
error alike, falls through to regeneration. -/
def runEventWith (alg : List Row → List Row) (ev : Event) (w : World) : RunResult :=
  if valueIsTrue ev.use_cache then
    match w.probe with
    | .found => cachedResult
    | _ => generate alg ev w true
  else generate alg ev w false

/-- Ordering of rows by the TIME column. -/
def timeLe (a b : Row) : Prop := a.time ≤ b.time

/-- Strict ordering of rows by the TIME column. -/
def timeLt (a b : Row) : Prop := a.time < b.time

instance : DecidableRel timeLe := fun a b => inferInstanceAs (Decidable (a.time ≤ b.time))

instance : DecidableRel timeLt := fun a b => inferInstanceAs (Decidable (a.time < b.time))

instance : IsTotal Row timeLe := ⟨fun a b => le_total a.time b.time⟩

instance : IsTrans Row timeLe := ⟨fun _ _ _ hab hbc => le_trans hab hbc⟩

instance : IsAntisymm Row timeLt := ⟨fun _ _ hab hba => (lt_asymm hab hba).elim⟩

/-- Everything line 123 (lc_tab.sort('TIME') delegating to astropy
Table.sort, hence to numpy argsort with its default sort kind) is
documented to guarantee: the result is a permutation of the input,
non-decreasing in TIME.  Tie order is NOT part of the contract: numpy's
default kind quicksort is documented as unstable. -/
def SortSpec (alg : List Row → List Row) : Prop :=
  ∀ l : List Row, (alg l).Perm l ∧ List.Sorted timeLe (alg l)

/-- A sort consistent with the line-123 contract that keeps ties in
input order. -/
def sortByTime (l : List Row) : List Row := List.insertionSort timeLe l

/-- A sort equally consistent with the line-123 contract that reverses
ties relative to input order. -/
def sortByTimeRevTies (l : List Row) : List Row := List.insertionSort timeLe l.reverse

/-- The pipeline instantiated with the tie-keeping sort; used to evaluate
concrete runs. -/
def runEvent (ev : Event) (w : World) : RunResult := runEventWith sortByTime ev w

/-- Parsed position block of a fragment, when it has one. -/
def fragPosOf (f : Fragment) : Option Pos :=
  match f.data with
  | .rows fields => (parseRow fields).map Prod.snd
  | _ => none

/-- Parsed table row of a fragment, when it has one. -/
def fragRowOf (f : Fragment) : Option Row :=
  match f.data with
  | .rows fields => (parseRow fields).map Prod.fst
  | _ => none

/-- Fragment whose download and local read both succeed. -/
def isRows (f : Fragment) : Bool :=
  match f.data with
  | .rows _ => true
  | _ => false

/-- A non-numeric token among the first eight slots of a token list. -/
def badIn8 (fields : List RawField) : Bool :=
  (List.range 8).any fun j => fields.get? j == some RawField.bad

/-- Fragment that reads fine but carries a non-numeric token in one of
its eight scalar positions. -/
def hasBad (f : Fragment) : Bool :=
  match f.data with
  | .rows fields => badIn8 fields
  | _ => false

/-- The run short-circuits exactly when the use_cache string test passes
and the probe finds the artifact. -/
def cacheHit (ev : Event) (w : World) : Bool :=
  valueIsTrue ev.use_cache && (w.probe == ProbeResult.found)

/-- Request of the documented happy-path scenario, parametrised over the
dynamic use_cache value. -/
def baseEvent (v : EventVal) : Event :=
  { tic_id := "25155310", sector := 1, camera := 4, ccd := 1, radius := 2,
    cutout_width := 30, use_cache := v }

def evCacheTrue : Event := baseEvent (EventVal.str ("true"))

def evNoCache : Event := baseEvent (EventVal.str ("false"))

/-- Fragment observed at time 1, flux 10, position (3, 4), sky (100, 200). -/
def fragA : Fragment :=
  { key := "a", data := FragData.rows [RawField.f 1, RawField.f 10, RawField.f 0,
      RawField.i 0, RawField.i 3, RawField.i 4, RawField.f 100, RawField.f 200] }

/-- Fragment observed at time 2, flux 20, position (5, 6), sky (101, 201). -/
def fragB : Fragment :=
  { key := "b", data := FragData.rows [RawField.f 2, RawField.f 20, RawField.f 0,
      RawField.i 0, RawField.i 5, RawField.i 6, RawField.f 101, RawField.f 201] }

/-- Fragment observed at time 5 with flux 1. -/
def fragT1 : Fragment :=
  { key := "t1", data := FragData.rows [RawField.f 5, RawField.f 1, RawField.f 0,
      RawField.i 0, RawField.i 3, RawField.i 4, RawField.f 100, RawField.f 200] }

/-- Fragment observed at the same time 5 but with flux 2. -/
def fragT2 : Fragment :=
  { key := "t2", data := FragData.rows [RawField.f 5, RawField.f 2, RawField.f 0,
      RawField.i 0, RawField.i 3, RawField.i 4, RawField.f 100, RawField.f 200] }

/-- Fragment with a non-numeric token in scalar slot 3 (the quality flag). -/
def fragBad : Fragment :=
  { key := "bad", data := FragData.rows [RawField.f 1, RawField.f 2, RawField.f 3,
      RawField.bad, RawField.i 1, RawField.i 1, RawField.f 1, RawField.f 1] }

/-- Fragment whose downloaded local copy cannot be read back as text. -/
def fragUnread : Fragment := { key := "u1", data := FragData.unreadable }

/-- Healthy world: artifact absent, two well-formed fragments enumerated
as A then B, write and upload succeed. -/
def wAB : World :=
  { probe := ProbeResult.notFound, fragments := [fragA, fragB], writeOk := true,
    uploadOk := true, now := "2020-01-01T00:00:00Z" }

/-- Same fragment set as wAB, enumerated in the other order. -/
def wBA : World := { wAB with fragments := [fragB, fragA] }

/-- Row parsed from fragA. -/
def rowA : Row := { time := 1, flux := 10, bkg := 0, quality := 0 }

/-- Row parsed from fragB. -/
def rowB : Row := { time := 2, flux := 20, bkg := 0, quality := 0 }

/-- Position block parsed from fragB. -/
def posB : Pos := { x := 5, y := 6, ra := 101, dec := 201 }

/-- Position block parsed from fragA. -/
def posA : Pos := { x := 3, y := 4, ra := 100, dec := 200 }

/-- World with two fragments sharing one timestamp. -/
def wTies : World := { wAB with fragments := [fragT1, fragT2] }

/-- World where the existence probe raises a transport error. -/
def wProbeErr : World := { wAB with probe := ProbeResult.transportErr }

/-- World where the S3 upload raises. -/
def wUploadFail : World := { wAB with uploadOk := false }

/-- World whose single fragment downloads but cannot be read back. -/
def wUnread : World := { wAB with fragments := [fragUnread] }

/-- World where the second fragment carries a non-numeric scalar. -/
def wBadFrag : World := { wAB with fragments := [fragA, fragBad] }

/- Helper lemmas. -/

lemma sortByTime_sortSpec : SortSpec sortByTime := fun l =>
  ⟨List.perm_insertionSort timeLe l, List.sorted_insertionSort timeLe l⟩

lemma sortByTimeRevTies_sortSpec : SortSpec sortByTimeRevTies := fun l =>
  ⟨(List.perm_insertionSort timeLe l.reverse).trans l.reverse_perm,
   List.sorted_insertionSort timeLe l.reverse⟩

lemma stepFragment_ok {st : LoopState} {f : Fragment} {st' : LoopState}
    (h : stepFragment st f = (st', none)) :
    ∃ fields r p, f.data = FragData.rows fields ∧ parseRow fields = some (r, p) ∧
      st' = { st with
        downloads := st.downloads + 1
        rows := st.rows ++ [r]
        lastPos := some p } := by
  rcases f with ⟨k, d⟩
  cases d with
  | fetchFail => simp [stepFragment] at h
  | unreadable => simp [stepFragment] at h
  | rows fields =>
      rcases hp : parseRow fields with _ | ⟨r, p⟩
      · simp [stepFragment, hp] at h
      · refine ⟨fields, r, p, rfl, hp, ?_⟩
        simp only [stepFragment, hp] at h
        injection h with h1 h2
        exact h1.symm

lemma processFrags_ok_last {frags : List Fragment} :
    ∀ {st st' : LoopState}, processFrags frags st = (st', none) → frags ≠ [] →
      ∃ f p, frags.getLast? = some f ∧ fragPosOf f = some p ∧ st'.lastPos = some p := by
  induction frags with
  | nil => intro st st' _ hne; exact absurd rfl hne
  | cons f fs ih =>
      intro st st' h _
      rcases hstep : stepFragment st f with ⟨st1, e⟩
      simp only [processFrags, hstep] at h
      cases e with
      | some e' => simp at h
      | none =>
          obtain ⟨fields, r, p, hd, hp, hst1⟩ := stepFragment_ok hstep
          cases fs with
          | nil =>
              simp only [processFrags] at h
              injection h with h1 h2
              refine ⟨f, p, rfl, ?_, ?_⟩
              · simp [fragPosOf, hd, hp]
              · rw [← h1, hst1]
          | cons g gs =>
              obtain ⟨f', p', hgl, hfp, hlp⟩ := ih h (by simp)
              exact ⟨f', p', by rw [List.getLast?_cons_cons]; exact hgl, hfp, hlp⟩

lemma processFrags_ok_rows {frags : List Fragment} :
    ∀ {st st' : LoopState}, processFrags frags st = (st', none) →
      st'.rows = st.rows ++ frags.filterMap fragRowOf := by
  induction frags with
  | nil =>
      intro st st' h
      simp only [processFrags] at h
      injection h with h1 h2
      simp [← h1]
  | cons f fs ih =>
      intro st st' h
      rcases hstep : stepFragment st f with ⟨st1, e⟩
      simp only [processFrags, hstep] at h
      cases e with
      | some e' => simp at h
      | none =>
          obtain ⟨fields, r, p, hd, hp, hst1⟩ := stepFragment_ok hstep
          have hfr : fragRowOf f = some r := by simp [fragRowOf, hd, hp]
          rw [ih h, hst1]
          simp [hfr, List.filterMap_cons]

lemma parseRow_none_of_bad {row : List RawField} (h : badIn8 row = true) :
    parseRow row = none := by
  simp only [badIn8, List.any_eq_true, List.mem_range, beq_iff_eq] at h
  obtain ⟨j, hj, hb⟩ := h
  unfold parseRow
  split
  · rename_i mid sig bkg dq xp yp ra dec h0 h1 h2 h3 h4 h5 h6 h7
    interval_cases j <;> simp_all [floatOf, intOf]
  · rfl

lemma processFrags_malformed {frags : List Fragment} :
    ∀ (st : LoopState), frags.all isRows = true → frags.any hasBad = true →
      ∃ st', processFrags frags st = (st', some Err.malformedFragment) := by
  induction frags with
  | nil => intro st _ hany; simp at hany
  | cons f fs ih =>
      intro st hall hany
      simp only [List.all_cons, Bool.and_eq_true] at hall
      obtain ⟨hf, hfs⟩ := hall
      rcases f with ⟨k, d⟩
      cases d with
      | fetchFail => simp [isRows] at hf
      | unreadable => simp [isRows] at hf
      | rows fields =>
          rcases hp : parseRow fields with _ | rp
          · refine ⟨{ st with downloads := st.downloads + 1 }, ?_⟩
            simp [processFrags, stepFragment, hp]
          · have hnb : badIn8 fields = false := by
              cases hbi : badIn8 fields with
              | false => rfl
              | true => rw [parseRow_none_of_bad hbi] at hp; exact Option.noConfusion hp
            have hany' : fs.any hasBad = true := by
              simpa [List.any_cons, hasBad, hnb] using hany
            rcases rp with ⟨r, p⟩
            obtain ⟨st', h'⟩ :=
              ih ⟨st.scratch, st.rows ++ [r], some p, st.downloads + 1⟩ hfs hany'
            refine ⟨st', ?_⟩
            simpa [processFrags, stepFragment, hp] using h'

lemma runEventWith_generate {alg : List Row → List Row} {ev : Event} {w : World}
    (hc : cacheHit ev w = false) :
    runEventWith alg ev w = generate alg ev w (valueIsTrue ev.use_cache) := by
  unfold cacheHit at hc
  unfold runEventWith
  cases hv : valueIsTrue ev.use_cache with
  | false => simp [hv]
  | true =>
      rw [hv] at hc
      simp only [Bool.true_and, beq_eq_false_iff_ne, ne_eq] at hc
      rcases w with ⟨pr, frags, wk, uk, now⟩
      cases pr with
      | found => exact absurd rfl hc
      | notFound => simp [hv]
      | transportErr => simp [hv]

lemma run_artifact_some {alg : List Row → List Row} {ev : Event} {w : World}
    {rs : List Row} {hd : Header}
    (h : (runEventWith alg ev w).artifact = some (rs, hd)) :
    ∃ st p, processFrags w.fragments initState = (st, none) ∧ st.lastPos = some p ∧
      w.writeOk = true ∧ rs = alg st.rows ∧ hd = buildHeader ev w.now p ∧
      runEventWith alg ev w =
        { outcome := .completed
          probeChecked := valueIsTrue ev.use_cache
          downloads := st.downloads
          uploadAttempts := 1
          uploaded := w.uploadOk
          errorsLogged := if w.uploadOk then 0 else 1
          scratch := st.scratch
          artifact := some (alg st.rows, buildHeader ev w.now p)
          bytes := some (serializeFits (alg st.rows) (buildHeader ev w.now p)) } := by
  have hgen : runEventWith alg ev w = generate alg ev w (valueIsTrue ev.use_cache) := by
    cases hch : cacheHit ev w with
    | false => exact runEventWith_generate hch
    | true =>
        exfalso
        unfold cacheHit at hch
        simp only [Bool.and_eq_true, beq_iff_eq] at hch
        unfold runEventWith at h
        rw [hch.1, hch.2] at h
        simp [cachedResult] at h
  rw [hgen] at h
  unfold generate at h
  rcases hp : processFrags w.fragments initState with ⟨st, e⟩
  rw [hp] at h
  cases e with
  | some e' => simp [crashedRun] at h
  | none =>
      simp only at h
      rcases hl : st.lastPos with _ | p
      · rw [hl] at h
        simp [crashedRun] at h
      · rw [hl] at h
        cases hwk : w.writeOk with
        | false => rw [hwk] at h; simp [crashedRun] at h
        | true =>
            rw [hwk] at h
            simp only [if_true] at h
            simp only [Option.some.injEq, Prod.mk.injEq] at h
            refine ⟨st, p, rfl, hl, rfl, h.1.symm, h.2.symm, ?_⟩
            rw [hgen]
            unfold generate
            rw [hp]
            simp only
            rw [hl, hwk]
            simp

lemma sorted_perm_nodup_eq {l1 l2 : List Row} (hp : l1.Perm l2)
    (h1 : List.Sorted timeLe l1) (h2 : List.Sorted timeLe l2)
    (hn : (l1.map Row.time).Nodup) : l1 = l2 := by
  have hne1 : l1.Pairwise (fun a b => Row.time a ≠ Row.time b) := by
    rw [List.Nodup, List.pairwise_map] at hn
    exact hn
  have hn2 : (l2.map Row.time).Nodup := ((hp.map Row.time).nodup_iff).mp hn
  have hne2 : l2.Pairwise (fun a b => Row.time a ≠ Row.time b) := by
    rw [List.Nodup, List.pairwise_map] at hn2
    exact hn2
  have hs1 : List.Sorted timeLt l1 :=
    (h1.and hne1).imp fun hab => lt_of_le_of_ne hab.1 hab.2
  have hs2 : List.Sorted timeLt l2 :=
    (h2.and hne2).imp fun hab => lt_of_le_of_ne hab.1 hab.2
  exact List.eq_of_perm_of_sorted hp hs1 hs2

lemma generate_probeChecked (alg : List Row → List Row) (ev : Event) (w : World)
    (pc : Bool) : (generate alg ev w pc).probeChecked = pc := by
  unfold generate
  split
  · simp [crashedRun]
  · split
    · simp [crashedRun]
    · split <;> simp [crashedRun]

lemma generate_not_cached (alg : List Row → List Row) (ev : Event) (w : World)
    (pc : Bool) : (generate alg ev w pc).outcome ≠ Outcome.cached := by
  unfold generate
  split
  · simp [crashedRun]
  · split
    · simp [crashedRun]
    · split <;> simp [crashedRun]

/- Claim theorems. -/

/-- C2 (code_bug evidence): on a fresh invocation whose fragment
enumeration is empty, the pipeline does not produce an empty table with
absent position fields; it dies with the UnboundLocalError raised at
lc_tab.meta.update (line 127 reads the never-assigned loop variable ra),
before any artifact is built, serialized or uploaded. -/
theorem c2_empty_enumeration_crashes :
    (runEvent evNoCache { wAB with fragments := [] }).outcome =
      Outcome.crashed Err.nameError ∧
    (runEvent evNoCache { wAB with fragments := [] }).artifact = none ∧
    (runEvent evNoCache { wAB with fragments := [] }).bytes = none ∧
    (runEvent evNoCache { wAB with fragments := [] }).uploadAttempts = 0 := by
  decide

/-- C3: when use_cache is the string true and the existence probe finds
the artifact, the run is a no-op: Cached outcome, zero downloads, zero
upload attempts, nothing built. -/
theorem c3_cache_hit_is_noop (alg : List Row → List Row) (ev : Event) (w : World)
    (hc : ev.use_cache = EventVal.str ("true")) (hf : w.probe = ProbeResult.found) :
    (runEventWith alg ev w).outcome = Outcome.cached ∧
    (runEventWith alg ev w).downloads = 0 ∧
    (runEventWith alg ev w).uploadAttempts = 0 ∧
    (runEventWith alg ev w).artifact = none ∧
    (runEventWith alg ev w).bytes = none := by
  have hrun : runEventWith alg ev w = cachedResult := by
    unfold runEventWith
    rw [hc, hf]
    simp [valueIsTrue]
  rw [hrun]
  exact ⟨rfl, rfl, rfl, rfl, rfl⟩

/-- C3 witness: the cache-hit scenario at a concrete request. -/
theorem c3_cache_hit_is_noop_witness :
    evCacheTrue.use_cache = EventVal.str ("true") ∧
    (runEventWith sortByTime evCacheTrue { wAB with probe := ProbeResult.found }).outcome =
      Outcome.cached ∧
    (runEventWith sortByTime evCacheTrue { wAB with probe := ProbeResult.found }).downloads = 0 :=
  ⟨by decide,
   (c3_cache_hit_is_noop sortByTime evCacheTrue { wAB with probe := ProbeResult.found }
      (by decide) (by decide)).1,
   (c3_cache_hit_is_noop sortByTime evCacheTrue { wAB with probe := ProbeResult.found }
      (by decide) (by decide)).2.1⟩

/-- C9 (code_bug evidence): a fragment whose downloaded copy cannot be
read back as text (open on line 105 in text mode raises, e.g. on
undecodable bytes) aborts the run after the download but before the
os.remove on line 109: the run terminates with the downloaded scratch
copy still on local storage. -/
theorem c9_read_failure_leaks_scratch_file :
    (runEvent evNoCache wUnread).outcome = Outcome.crashed Err.readFailure ∧
    (runEvent evNoCache wUnread).scratch = ["u1"] ∧
    (runEvent evNoCache wUnread).scratch ≠ [] := by
  decide

/-- C1 counterexample: same fragment set, same generation timestamp, two
enumeration orders; the serialized artifact bytes differ, because the
header position fields (lines 126-130) take whatever the last-enumerated
fragment left in the loop variables. -/
theorem c1_bytes_depend_on_enumeration_order :
    wAB.fragments.Perm wBA.fragments ∧ wAB.now = wBA.now ∧
    (runEvent evNoCache wAB).bytes ≠ (runEvent evNoCache wBA).bytes := by
  refine ⟨by decide, rfl, by decide⟩

/-- C1 amended: a run is a pure function of the enumerated sequence and
the timestamp, and for the table body order-independence does hold: two
runs over permuted enumerations of one fragment set, each with any sort
meeting the line-123 contract, build identical row lists whenever the
timestamps are pairwise distinct.  The header (hence the bytes) may still
differ, as the counterexample shows. -/
theorem c1_table_rows_enumeration_order_independent
    (a1 a2 : List Row → List Row) (ev : Event) (w1 w2 : World)
    (rs1 rs2 : List Row) (h1 h2 : Header)
    (hs1 : SortSpec a1) (hs2 : SortSpec a2)
    (hperm : w1.fragments.Perm w2.fragments)
    (ha1 : (runEventWith a1 ev w1).artifact = some (rs1, h1))
    (ha2 : (runEventWith a2 ev w2).artifact = some (rs2, h2))
    (hnd : (rs1.map Row.time).Nodup) :
    rs1 = rs2 := by
  obtain ⟨st1, p1, hp1, _, _, hrs1, _, _⟩ := run_artifact_some ha1
  obtain ⟨st2, p2, hp2, _, _, hrs2, _, _⟩ := run_artifact_some ha2
  have hr1 : st1.rows = w1.fragments.filterMap fragRowOf := by
    simpa [initState] using processFrags_ok_rows hp1
  have hr2 : st2.rows = w2.fragments.filterMap fragRowOf := by
    simpa [initState] using processFrags_ok_rows hp2
  have hperm' : rs1.Perm rs2 := by
    rw [hrs1, hrs2]
    have t1 : (a1 st1.rows).Perm st1.rows := (hs1 st1.rows).1
    have t2 : st1.rows.Perm st2.rows := by
      rw [hr1, hr2]
      exact hperm.filterMap fragRowOf
    have t3 : st2.rows.Perm (a2 st2.rows) := ((hs2 st2.rows).1).symm
    exact (t1.trans t2).trans t3
  have hsort1 : List.Sorted timeLe rs1 := hrs1 ▸ (hs1 st1.rows).2
  have hsort2 : List.Sorted timeLe rs2 := hrs2 ▸ (hs2 st2.rows).2
  exact sorted_perm_nodup_eq hperm' hsort1 hsort2 hnd

/-- C1 witness: the two enumeration orders of the A and B fragments,
sorted by two different contract-compliant sorts, give the same rows. -/
theorem c1_table_rows_enumeration_order_independent_witness :
    wAB.fragments.Perm wBA.fragments ∧
    (runEventWith sortByTime evNoCache wAB).artifact =
      some ([rowA, rowB], buildHeader evNoCache wAB.now posB) ∧
    (runEventWith sortByTimeRevTies evNoCache wBA).artifact =
      some ([rowA, rowB], buildHeader evNoCache wBA.now posA) ∧
    (([rowA, rowB]).map Row.time).Nodup ∧
    ([rowA, rowB] : List Row) = [rowA, rowB] :=
  ⟨by decide, by decide, by decide, by decide,
   c1_table_rows_enumeration_order_independent sortByTime sortByTimeRevTies
     evNoCache wAB wBA [rowA, rowB] [rowA, rowB]
     (buildHeader evNoCache wAB.now posB) (buildHeader evNoCache wBA.now posA)
     sortByTime_sortSpec sortByTimeRevTies_sortSpec
     (by decide) (by decide) (by decide) (by decide)⟩

/-- C4 counterexample: the source pins the terminal sort down only to the
astropy/numpy argsort contract (a TIME-sorted permutation; numpy's
default kind, quicksort, is documented as unstable).  A sort satisfying
that exact contract can return equal-timestamp records in reversed
enumeration order: on two fragments sharing timestamp 5 with fluxes 1
then 2, it yields the fluxes as 2 then 1, while a tie-keeping sort yields
1 then 2 — so tie stability is not a property of the code. -/
theorem c4_tie_order_not_guaranteed :
    SortSpec sortByTimeRevTies ∧
    (runEventWith sortByTimeRevTies evNoCache wTies).artifact.map
      (fun x => x.1.map Row.flux) = some [2, 1] ∧
    (runEventWith sortByTime evNoCache wTies).artifact.map
      (fun x => x.1.map Row.flux) = some [1, 2] :=
  ⟨sortByTimeRevTies_sortSpec, by decide, by decide⟩

/-- C4 amended: for every sort meeting the line-123 contract, whenever an
artifact is built its table is non-decreasing in TIME and is a
permutation of the parsed records; the order among equal timestamps is
not specified. -/
theorem c4_output_times_nondecreasing
    (alg : List Row → List Row) (ev : Event) (w : World)
    (rs : List Row) (hd : Header) (hs : SortSpec alg)
    (h : (runEventWith alg ev w).artifact = some (rs, hd)) :
    List.Sorted timeLe rs ∧ rs.Perm (w.fragments.filterMap fragRowOf) := by
  obtain ⟨st, p, hp, _, _, hrs, _, _⟩ := run_artifact_some h
  have hr : st.rows = w.fragments.filterMap fragRowOf := by
    simpa [initState] using processFrags_ok_rows hp
  subst hrs
  exact ⟨(hs st.rows).2, hr ▸ (hs st.rows).1⟩

/-- C4 witness: the sorted-output property at a concrete run. -/
theorem c4_output_times_nondecreasing_witness :
    SortSpec sortByTime ∧
    (runEventWith sortByTime evNoCache wBA).artifact =
      some ([rowA, rowB], buildHeader evNoCache wBA.now posA) ∧
    (List.Sorted timeLe [rowA, rowB] ∧
      ([rowA, rowB] : List Row).Perm (wBA.fragments.filterMap fragRowOf)) :=
  ⟨sortByTime_sortSpec, by decide,
   c4_output_times_nondecreasing sortByTime evNoCache wBA [rowA, rowB]
     (buildHeader evNoCache wBA.now posA) sortByTime_sortSpec (by decide)⟩

/-- C5: whenever an artifact is built, its header position fields equal
the position scalars of the last fragment in pre-sort enumeration order
(the loop-leftover variables of lines 126-130), not those of the
chronologically last record. -/
theorem c5_header_position_from_last_enumerated
    (alg : List Row → List Row) (ev : Event) (w : World)
    (rs : List Row) (hd : Header)
    (h : (runEventWith alg ev w).artifact = some (rs, hd)) :
    ∃ f p, w.fragments.getLast? = some f ∧ fragPosOf f = some p ∧
      hd.raObj = p.ra ∧ hd.decObj = p.dec ∧ hd.apcenX = p.x ∧ hd.apcenY = p.y := by
  obtain ⟨st, p, hp, hl, _, _, hhd, _⟩ := run_artifact_some h
  have hne : w.fragments ≠ [] := by
    intro hnil
    rw [hnil] at hp
    simp only [processFrags] at hp
    injection hp with hst _
    rw [← hst] at hl
    simp [initState] at hl
  obtain ⟨f, p', hgl, hfp, hlp⟩ := processFrags_ok_last hp hne
  rw [hl] at hlp
  injection hlp with hpp
  subst hhd
  exact ⟨f, p, hgl, by rw [hfp, hpp], rfl, rfl, rfl, rfl⟩

/-- C5 witness: with enumeration order B then A, the header position is
fragA's (the last enumerated), even though fragB is chronologically last. -/
theorem c5_header_position_from_last_enumerated_witness :
    (runEventWith sortByTime evNoCache wBA).artifact =
      some ([rowA, rowB], buildHeader evNoCache wBA.now posA) ∧
    (∃ f p, wBA.fragments.getLast? = some f ∧ fragPosOf f = some p ∧
      (buildHeader evNoCache wBA.now posA).raObj = p.ra ∧
      (buildHeader evNoCache wBA.now posA).decObj = p.dec ∧
      (buildHeader evNoCache wBA.now posA).apcenX = p.x ∧
      (buildHeader evNoCache wBA.now posA).apcenY = p.y) :=
  ⟨by decide,
   c5_header_position_from_last_enumerated sortByTime evNoCache wBA [rowA, rowB]
     (buildHeader evNoCache wBA.now posA) (by decide)⟩

/-- C6: when the run is not short-circuited by the cache and every
fragment downloads and reads fine, a single fragment carrying a
non-numeric token in any of its eight scalar slots makes the whole
request die with the parse error (the ValueError of lines 111-118, the
MalformedFragment of the taxonomy) before any artifact is built,
serialized or uploaded. -/
theorem c6_malformed_fragment_aborts_request
    (alg : List Row → List Row) (ev : Event) (w : World)
    (hc : cacheHit ev w = false)
    (hall : w.fragments.all isRows = true)
    (hbad : w.fragments.any hasBad = true) :
    (runEventWith alg ev w).outcome = Outcome.crashed Err.malformedFragment ∧
    (runEventWith alg ev w).artifact = none ∧
    (runEventWith alg ev w).bytes = none ∧
    (runEventWith alg ev w).uploadAttempts = 0 ∧
    (runEventWith alg ev w).uploaded = false := by
  obtain ⟨st', hp⟩ := processFrags_malformed initState hall hbad
  rw [runEventWith_generate hc]
  unfold generate
  rw [hp]
  simp [crashedRun]

/-- C6 witness: one bad fragment among two, at a concrete request. -/
theorem c6_malformed_fragment_aborts_request_witness :
    cacheHit evNoCache wBadFrag = false ∧
    wBadFrag.fragments.all isRows = true ∧
    wBadFrag.fragments.any hasBad = true ∧
    (runEventWith sortByTime evNoCache wBadFrag).outcome =
      Outcome.crashed Err.malformedFragment :=
  ⟨by decide, by decide, by decide,
   (c6_malformed_fragment_aborts_request sortByTime evNoCache wBadFrag
     (by decide) (by decide) (by decide)).1⟩

/-- C7 counterexample: with use_cache true and a probe that raises a
transport error, the run does not propagate a FetchFailure: the except
clause of lines 75-76 swallows it as a cache miss and the pipeline
regenerates and uploads the artifact. -/
theorem c7_probe_transport_error_not_propagated :
    wProbeErr.probe = ProbeResult.transportErr ∧
    (runEvent evCacheTrue wProbeErr).outcome = Outcome.completed ∧
    (runEvent evCacheTrue wProbeErr).downloads = 2 ∧
    (runEvent evCacheTrue wProbeErr).uploaded = true := by
  decide

/-- C7 amended: the probe swallows every exception alike: a run whose
probe raises a transport error is indistinguishable from one whose probe
reports not-found; no FetchFailure ever leaves the probe. -/
theorem c7_probe_error_treated_as_cache_miss
    (alg : List Row → List Row) (ev : Event) (w : World)
    (h : w.probe = ProbeResult.transportErr) :
    runEventWith alg ev w = runEventWith alg ev { w with probe := ProbeResult.notFound } := by
  obtain ⟨pr, frags, wk, uk, now⟩ := w
  have h' : pr = ProbeResult.transportErr := h
  subst h'
  unfold runEventWith
  cases hv : valueIsTrue ev.use_cache
  · rfl
  · rfl

/-- C7 witness: the transport-error world and its not-found twin produce
the same run. -/
theorem c7_probe_error_treated_as_cache_miss_witness :
    wProbeErr.probe = ProbeResult.transportErr ∧
    runEventWith sortByTime evCacheTrue wProbeErr =
      runEventWith sortByTime evCacheTrue { wProbeErr with probe := ProbeResult.notFound } :=
  ⟨rfl, c7_probe_error_treated_as_cache_miss sortByTime evCacheTrue wProbeErr rfl⟩

/-- C8 counterexample: a failed upload is caught by the except clause of
lines 141-142: exactly one error event is logged, but the invocation then
completes like a success (the loop moves to the next event); no failed
invocation result is surfaced to the orchestrator. -/
theorem c8_failed_publish_reported_as_success :
    wUploadFail.uploadOk = false ∧
    (runEvent evNoCache wUploadFail).outcome = Outcome.completed ∧
    (runEvent evNoCache wUploadFail).uploaded = false ∧
    (runEvent evNoCache wUploadFail).errorsLogged = 1 := by
  decide

/-- C8 amended: failures before the upload propagate as uncaught
exceptions, but a publish failure is swallowed: whenever the artifact is
built and the upload fails, the run logs exactly one error event and
still terminates as a completed (non-failed) invocation. -/
theorem c8_publish_failure_logged_and_swallowed
    (alg : List Row → List Row) (ev : Event) (w : World)
    (rs : List Row) (hd : Header)
    (h : (runEventWith alg ev w).artifact = some (rs, hd))
    (hu : w.uploadOk = false) :
    (runEventWith alg ev w).outcome = Outcome.completed ∧
    (runEventWith alg ev w).uploaded = false ∧
    (runEventWith alg ev w).errorsLogged = 1 := by
  obtain ⟨st, p, _, _, _, _, _, hrun⟩ := run_artifact_some h
  rw [hrun]
  simp [hu]

/-- C8 witness: the swallowed publish failure at a concrete run. -/
theorem c8_publish_failure_logged_and_swallowed_witness :
    (runEventWith sortByTime evNoCache wUploadFail).artifact =
      some ([rowA, rowB], buildHeader evNoCache wUploadFail.now posB) ∧
    wUploadFail.uploadOk = false ∧
    (runEventWith sortByTime evNoCache wUploadFail).outcome = Outcome.completed :=
  ⟨by decide, by decide,
   (c8_publish_failure_logged_and_swallowed sortByTime evNoCache wUploadFail
     [rowA, rowB] (buildHeader evNoCache wUploadFail.now posB)
     (by decide) (by decide)).1⟩

/-- C10: the probe is consulted exactly when use_cache is the string
true.  For any other dynamic value (the boolean True, the strings True
or 1, a number, ...), the line-68 comparison is False, the existence
check is skipped entirely, the run cannot report Cached, and the probe
answer is irrelevant: even an already-present artifact is regenerated
and re-uploaded. -/
theorem c10_cache_needs_exact_string_true
    (alg : List Row → List Row) (ev : Event) (w : World)
    (h : ev.use_cache ≠ EventVal.str ("true")) :
    (runEventWith alg ev w).probeChecked = false ∧
    (runEventWith alg ev w).outcome ≠ Outcome.cached ∧
    runEventWith alg ev { w with probe := ProbeResult.found } = runEventWith alg ev w := by
  have hv : valueIsTrue ev.use_cache = false := by
    cases hev : ev.use_cache with
    | str s =>
        rw [hev] at h
        simp only [ne_eq, EventVal.str.injEq] at h
        simp [valueIsTrue, h]
    | bool b => rfl
    | num n => rfl
  have hgen : runEventWith alg ev w = generate alg ev w false := by
    unfold runEventWith
    simp [hv]
  have hgenF : runEventWith alg ev { w with probe := ProbeResult.found } =
      generate alg ev { w with probe := ProbeResult.found } false := by
    unfold runEventWith
    simp [hv]
  refine ⟨?_, ?_, ?_⟩
  · rw [hgen]
    exact generate_probeChecked alg ev w false
  · rw [hgen]
    exact generate_not_cached alg ev w false
  · rw [hgenF, hgen]
    rfl

/-- C10 witness: the boolean True and the strings True and 1 all skip the
probe, and with the boolean True the run re-uploads even though the
artifact already exists at the target address. -/
theorem c10_cache_needs_exact_string_true_witness :
    (baseEvent (EventVal.bool true)).use_cache ≠ EventVal.str ("true") ∧
    (runEventWith sortByTime (baseEvent (EventVal.bool true)) wAB).probeChecked = false ∧
    (runEventWith sortByTime (baseEvent (EventVal.str ("True"))) wAB).probeChecked = false ∧
    (runEventWith sortByTime (baseEvent (EventVal.str ("1"))) wAB).probeChecked = false ∧
    (runEventWith sortByTime (baseEvent (EventVal.bool true))
      { wAB with probe := ProbeResult.found }).uploaded = true :=
  ⟨by decide,
   (c10_cache_needs_exact_string_true sortByTime (baseEvent (EventVal.bool true))
      wAB (by decide)).1,
   (c10_cache_needs_exact_string_true sortByTime (baseEvent (EventVal.str ("True")))
      wAB (by decide)).1,
   (c10_cache_needs_exact_string_true sortByTime (baseEvent (EventVal.str ("1")))
      wAB (by decide)).1,
   by decide⟩
